import Mathlib

/-!
Verification of the configuration writer in `stephanOOP.py`.

The development shallowly embeds the module's pure logic:

* `check_prerequisites` — the mandatory-environment-variable check;
* `assemble_environment` — three-tier precedence resolution plus the
  Spark-master discovery from the `.bashrc` host startup file;
* `write_config` / `write_s3_config` — the serialized file contents;
* `write_transfer_script` — the download/upload shell-script synthesis.

The process environment is modelled as a function `String → Option String`
(`none` = variable absent); Python's `os.environ.get(v, d)` is `(env v).getD d`.
The ordered environment table (an `OrderedDict`) is a `List (String × String)`
with `setEntry` (update in place if the key exists, else append) and
`lookupD` (first entry wins).  Fallible Python code (raised exceptions) is
embedded into `Except String`.  File text is a `String`; the lines of a
written file are recovered by `fileLines`, which splits on `'\n'`.
-/

namespace StephanOOP

/-! ## Character-level string utilities -/

/-- Split a character list at every newline character.  A list with `n`
newlines yields `n + 1` chunks; in particular the result is never empty. -/
def splitNl : List Char → List (List Char)
  | [] => [[]]
  | c :: cs =>
    if c = '\n' then [] :: splitNl cs
    else
      match splitNl cs with
      | [] => [[c]]
      | l :: ls => (c :: l) :: ls

/-- The lines of a piece of file text, i.e. the chunks between newline
characters. -/
def fileLines (s : String) : List String :=
  (splitNl s.data).map fun l => ⟨l⟩

/-- Join a list of strings with newline separators; this is Python's
`"\n".join(lines)`, used by `write_to_file` and for the per-entity blocks of
`write_transfer_script`. -/
def joinLines : List String → String
  | [] => ""
  | [l] => l
  | l :: ls => l ++ "\n" ++ joinLines ls

/-- `true` when the string contains no newline character. -/
def nlFree (s : String) : Bool :=
  s.data.all fun c => c != '\n'

/-- Prefix test on the underlying character lists; this is Python's
`str.startswith`, used both for the source's remote-path classification and
as the observer in the theorem statements. -/
def strStarts (s pre : String) : Bool :=
  pre.data.isPrefixOf s.data

/-- The first character of a string, if any. -/
def headChar (s : String) : Option Char :=
  s.data.head?

/-- Substring containment, Python's `pat in line` for strings. -/
def containsSub : List Char → List Char → Bool
  | [], pat => pat.isEmpty
  | s@(_ :: cs), pat => pat.isPrefixOf s || containsSub cs pat

/-- Python's `pat in line` on strings. -/
def strContains (line pat : String) : Bool :=
  containsSub line.data pat.data

/-- Everything after the first `'='`; Python's `line.split("=", 1)[1]`
(total: returns `[]` when no `'='` occurs, but every use in the source is
guarded by a containment test that guarantees one). -/
def afterFirstEq : List Char → List Char
  | [] => []
  | c :: cs => if c = '=' then cs else afterFirstEq cs

/-- Worker for `listReplace`: scan left to right; `skip` counts characters
of an already-matched pattern occurrence still to be consumed.  On a match
the replacement is emitted and the matched characters are skipped, giving
the leftmost, non-overlapping semantics of Python's `str.replace`. -/
def replAux (pat rep : List Char) : List Char → Nat → List Char
  | [], _ => []
  | _ :: cs, skip + 1 => replAux pat rep cs skip
  | c :: cs, 0 =>
    if pat.isPrefixOf (c :: cs) ∧ pat ≠ [] then
      rep ++ replAux pat rep cs (pat.length - 1)
    else
      c :: replAux pat rep cs 0

/-- Replace every leftmost, non-overlapping occurrence of `pat` by `rep`;
Python's `str.replace` on the underlying character lists.  (The empty
pattern, which Python treats specially, never occurs in the source.) -/
def listReplace (s pat rep : List Char) : List Char :=
  replAux pat rep s 0

/-- Python's `str.replace`. -/
def pyReplace (s pat rep : String) : String :=
  ⟨listReplace s.data pat.data rep.data⟩

/-! ## The ordered environment table -/

/-- `OrderedDict.__setitem__`: update the value in place when the key is
already present (keeping its position), otherwise append the pair. -/
def setEntry (t : List (String × String)) (k v : String) : List (String × String) :=
  if t.any (fun p => p.1 == k) then
    t.map fun p => if p.1 == k then (k, v) else p
  else
    t ++ [(k, v)]

/-- `OrderedDict.get(k, d)`: the value of the first entry with key `k`,
or `d` when there is none. -/
def lookupD (t : List (String × String)) (k d : String) : String :=
  match t.find? (fun p => p.1 == k) with
  | some p => p.2
  | none => d

/-! ## `ConfigSetter.check_prerequisites` -/

/-- The class attribute `prerequisite_environment_variables`. -/
def prerequisite_environment_variables : List String :=
  ["CB_HOST", "CB_USER", "CB_PASSWORD", "CB_BUCKET",
   "C360_ENVIRONMENT", "PROCESS_DATE", "ENCRYPTION_KEY"]

/-- The log line emitted for a missing variable. -/
def missingMsg (v : String) : String :=
  "Missing environment variable " ++ v

/-- Python's `not os.environ.get(variable, None)`: the variable is treated as
missing both when it is absent and when its value is the empty string (the
only falsy string). -/
def isMissing (osEnv : String → Option String) (v : String) : Bool :=
  match osEnv v with
  | none => true
  | some s => s == ""

/-- One iteration of the `check_prerequisites` loop over
`(missing_variables, logged lines, self.environment)`. -/
def checkStep (osEnv : String → Option String)
    (acc : Nat × List String × List (String × String)) (v : String) :
    Nat × List String × List (String × String) :=
  if isMissing osEnv v then
    (acc.1 + 1, acc.2.1 ++ [missingMsg v], acc.2.2)
  else
    (acc.1, acc.2.1, setEntry acc.2.2 v ((osEnv v).getD ""))

/-- `check_prerequisites`, returning the count of missing variables, the
logged lines, and the updated environment table (`table` is
`self.environment` on entry). -/
def check_prerequisites (osEnv : String → Option String)
    (table : List (String × String)) :
    Nat × List String × List (String × String) :=
  prerequisite_environment_variables.foldl (checkStep osEnv) (0, [], table)

/-! ## `ConfigSetter.write_config` and `write_s3_config` -/

/-- The `export KEY=...` line for one table entry: the two secret-bearing
keys are single-quoted, every other key double-quoted. -/
def exportLine (p : String × String) : String :=
  let quotes := if p.1 = "CB_PASSWORD" ∨ p.1 = "ENCRYPTION_KEY" then "\x27" else "\x22"
  "export " ++ p.1 ++ "=" ++ quotes ++ p.2 ++ quotes

/-- The text written to `~/.c360cfg`: the loop writes one export line per
table entry, in insertion order, each terminated by a newline; the file
content is the concatenation of the successive writes. -/
def configFileContent : List (String × String) → String
  | [] => ""
  | p :: ps => exportLine p ++ "\n" ++ configFileContent ps

/-- The text written to `~/.s3cfg`. -/
def s3ConfigContent (t : List (String × String)) : String :=
  let endpoint0 := lookupD t "S3_ENDPOINT" ""
  let endpoint :=
    if strStarts endpoint0 "https://" then endpoint0.drop 8
    else if strStarts endpoint0 "http://" then endpoint0.drop 7
    else endpoint0
  joinLines
    ["[default]",
     "host_base = " ++ endpoint,
     "host_bucket = " ++ endpoint,
     "access_key = " ++ lookupD t "S3_ACCESSKEY" "",
     "secret_key = " ++ lookupD t "S3_SECRETKEY" "ignored",
     "use_https = true",
     "signature_v2 = false",
     "enable_multipart = false"]

/-! ## `ConfigSetter.write_transfer_script`

An entity of the catalog (`processing.entities`) is either flat — a mapping
carrying a `sourceFiles` list (possibly absent, defaulted to `[]`) — or, for
the reserved name `"kpis"`, a list of sub-objects each carrying its own
`sourceFiles` list.  The catalog itself is an ordered mapping
name ↦ entity data. -/

/-- The two schema shapes an entity's data can take. -/
inductive EntityData where
  | flat (sourceFiles : List String)
  | nested (kpis : List (List String))

/-- All leaf source files of one entity's data. -/
def leavesOf : EntityData → List String
  | .flat fs => fs
  | .nested ks => ks.flatten

/-- Total number of leaf source files in a catalog. -/
def leafCount (entities : List (String × EntityData)) : Nat :=
  (entities.flatMap fun e => leavesOf e.2).length

/-- One catalog entry is well-shaped when it has the nested shape exactly
if it carries the reserved name `"kpis"`. -/
def wfEntry (e : String × EntityData) : Bool :=
  match e.2 with
  | .flat _ => e.1 != "kpis"
  | .nested _ => e.1 == "kpis"

/-- A catalog is well-shaped when exactly the reserved entity `"kpis"` has
the nested shape; on any other combination the Python code raises an
`AttributeError` (`.get` on a list, or `.get` on a dict key string). -/
def wfCatalog (entities : List (String × EntityData)) : Bool :=
  entities.all wfEntry

/-- The suffix-stripped scheme rewrites applied to each path:
`.replace("s3a:", "s3:").replace("s3n:", "s3:")`. -/
def normalizePath (s : String) : String :=
  pyReplace (pyReplace s "s3a:" "s3:") "s3n:" "s3:"

/-- `"s3cmd get --force {0}{1} {1}".format(source_path, file_name)`. -/
def fetchCmd (source_path file_name : String) : String :=
  "s3cmd get --force " ++ source_path ++ file_name ++ " " ++ file_name

/-- The element appended to `download_lines` for one entity (or one kpi
sub-object): the newline-join of its fetch commands, raising on a
shape/name mismatch. -/
def entityLines (source_path : String) (e : String × EntityData) :
    Except String (List String) :=
  if e.1 ≠ "kpis" then
    match e.2 with
    | .flat fs => .ok [joinLines (fs.map (fetchCmd source_path))]
    | .nested _ => .error "AttributeError: list object has no attribute get"
  else
    match e.2 with
    | .nested ks => .ok (ks.map fun kpi => joinLines (kpi.map (fetchCmd source_path)))
    | .flat _ => .error "AttributeError: str object has no attribute get"

/-- The per-entity elements over the whole catalog, first failure wins. -/
def entitiesFetchBlocks (source_path : String) :
    List (String × EntityData) → Except String (List (List String))
  | [] => .ok []
  | e :: es =>
    match entityLines source_path e with
    | .error m => .error m
    | .ok b =>
      match entitiesFetchBlocks source_path es with
      | .error m => .error m
      | .ok bs => .ok (b :: bs)

/-- The `# handle source files` block of `download_lines`. -/
def entity_download_block (temporary_path source_path : String)
    (entities : List (String × EntityData)) : Except String (List String) :=
  if strStarts source_path "s3" then
    match entitiesFetchBlocks source_path entities with
    | .error m => .error m
    | .ok blocks =>
      .ok (("[ -d \x22" ++ temporary_path ++ "raw\x22 ] && cd " ++ temporary_path
              ++ "raw && pwd") :: blocks.flatten)
  else .ok []

/-- The fixed-name identifier archive. -/
def identifier_filename : String := "identifier.parquet"

/-- The `# handle index file` block of `download_lines`. -/
def index_download_block (temporary_path intermediate_path : String) : List String :=
  if strStarts intermediate_path "s3" then
    ["[ -d \x22" ++ temporary_path ++ "parquet/\x22 ] && cd " ++ temporary_path
       ++ "parquet/ && pwd",
     "s3cmd get --force " ++ intermediate_path ++ identifier_filename ++ ".tgz "
       ++ identifier_filename ++ ".tgz",
     "[ -s \x22" ++ identifier_filename ++ ".tgz\x22 ] && tar -xzf "
       ++ identifier_filename ++ ".tgz",
     "[ -s \x22" ++ identifier_filename ++ ".tgz\x22 ] && rm "
       ++ identifier_filename ++ ".tgz"]
  else []

/-- The elements of `download_lines`, in emission order. -/
def download_lines (temporary_path source_path intermediate_path : String)
    (entities : List (String × EntityData)) : Except String (List String) :=
  match entity_download_block temporary_path source_path entities with
  | .error m => .error m
  | .ok ent =>
    .ok (["#!/bin/bash",
          "mkdir -p " ++ temporary_path ++ "raw " ++ temporary_path ++ "parquet "
            ++ temporary_path ++ "json"]
         ++ index_download_block temporary_path intermediate_path
         ++ ent)

/-- The `# handle index file` block of `upload_lines`. -/
def index_upload_block (temporary_path intermediate_path : String) : List String :=
  if strStarts intermediate_path "s3" then
    ["[ -d \x22" ++ temporary_path ++ "parquet\x22 ] && cd " ++ temporary_path ++ "parquet",
     "[ -d \x22" ++ identifier_filename ++ "\x22 ] && tar -czf " ++ identifier_filename
       ++ ".tgz " ++ identifier_filename,
     "[ -s \x22" ++ identifier_filename ++ ".tgz\x22 ] && s3cmd put "
       ++ identifier_filename ++ ".tgz " ++ intermediate_path
       ++ identifier_filename ++ ".tgz"]
  else []

/-- The four fixed well-known document names. -/
def final_documents : List String :=
  ["person.json", "organization.json", "index.json", "event.json"]

/-- The `# handle target files` block of `upload_lines`. -/
def target_upload_block (temporary_path target_path : String) : List String :=
  if strStarts target_path "s3" then
    ("cd " ++ temporary_path ++ "json || (echo \x22Cannot find " ++ temporary_path
       ++ " for uploading final documents.\x22; exit 1)")
    :: final_documents.flatMap fun document =>
        ["[ -d \x22" ++ document ++ "\x22 ] && tar -czf " ++ document ++ ".tgz " ++ document,
         "[ -s \x22" ++ document ++ ".tgz\x22 ] && s3cmd put " ++ document ++ ".tgz "
           ++ target_path ++ document ++ ".tgz"]
  else []

/-- The elements of `upload_lines`, in emission order. -/
def upload_lines (temporary_path intermediate_path target_path : String) :
    List String :=
  ["#!/bin/bash"]
  ++ index_upload_block temporary_path intermediate_path
  ++ target_upload_block temporary_path target_path

/-- `write_transfer_script`: reads the four paths from the environment table
(defaulting to `"/nfsmount/"`), applies the scheme rewrites, and produces the
text of `download_files.sh` and `upload_files.sh` (each written with
permission `0700`). -/
def write_transfer_script (environment : List (String × String))
    (entities : List (String × EntityData)) : Except String (String × String) :=
  let temporary_path := normalizePath (lookupD environment "C360_TEMP_PATH" "/nfsmount/")
  let source_path := normalizePath (lookupD environment "C360_SOURCE_PATH" "/nfsmount/")
  let intermediate_path := normalizePath (lookupD environment "C360_INTERMEDIATE_PATH" "/nfsmount/")
  let target_path := normalizePath (lookupD environment "C360_TARGET_PATH" "/nfsmount/")
  match download_lines temporary_path source_path intermediate_path entities with
  | .error m => .error m
  | .ok dls =>
    .ok (joinLines dls, joinLines (upload_lines temporary_path intermediate_path target_path))

/-! ## `ConfigSetter.assemble_environment`

The configuration store (`self.config`, an external nested read-only
mapping) is modelled by one `Option String` field per key path the source
reads; `none` means the path is absent at some level — the chained
`.get(key, {})` fallbacks make all the absence cases equivalent.  The
`processing.entities` section and the external
`configuration.get_local_path` accessor are carried alongside. -/

structure Config where
  generalClient : Option String := none
  generalCouchbaseBucket : Option String := none
  generalCouchbaseIndex : Option String := none
  generalCouchbaseStatistics : Option String := none
  generalS3Endpoint : Option String := none
  generalS3Accesskey : Option String := none
  generalS3Secretkey : Option String := none
  processingPathsSource : Option String := none
  processingPathsIntermediate : Option String := none
  processingPathsFinal : Option String := none
  processingInternalTemporary : Option String := none
  entities : List (String × EntityData) := []

/-- Modelled from the spec: the external helper `util.string.append`
(imported as `strappend`) is not under `src/`; §4.3 of the specification
describes it as a pure function that "appends exactly one trailing path
separator if none is present; idempotent (never yields a doubled
separator)". -/
def strappend (s suffix : String) : String :=
  if suffix.data.isSuffixOf s.data then s else s ++ suffix

/-- The parse state of the `.bashrc` scan: `spark_host` and `spark_port`
are initialised to `""` before the loop, while `spark_master` is only ever
bound inside the loop — `none` models the still-unbound local variable. -/
structure BashrcState where
  sparkHost : String := ""
  sparkPort : String := ""
  sparkMaster : Option String := none

/-- The value extracted from a matching line:
`line.split("=", 1)[1].strip("\n")`.  Lines are modelled without their
trailing newline character, which makes the `strip("\n")` a no-op. -/
def lineValue (line : String) : String :=
  ⟨afterFirstEq line.data⟩

/-- One iteration of the `.bashrc` loop; the three substring tests are
applied in sequence to the same line, later lines overwriting earlier
values (last-wins). -/
def parseBashrcLine (st : BashrcState) (line : String) : BashrcState :=
  let st := if strContains line "SPARK_MASTER_HOST=" then
    { st with sparkHost := lineValue line } else st
  let st := if strContains line "SPARK_MASTER_PORT=" then
    { st with sparkPort := lineValue line } else st
  if strContains line "SPARK_MASTER=" then
    { st with sparkMaster := some (lineValue line) } else st

/-- The branch after the loop.  Reading `spark_master` when no line bound it
raises `UnboundLocalError`; otherwise the result is the resolved master
address together with the logged diagnostic lines. -/
def resolveMaster (st : BashrcState) : Except String (String × List String) :=
  match st.sparkMaster with
  | none =>
    .error "UnboundLocalError: local variable spark_master referenced before assignment"
  | some m =>
    if m ≠ "" ∧ ¬ m.data.contains '$' then
      .ok (pyReplace (pyReplace m "$SPARK_MASTER_HOST" st.sparkHost)
             "$SPARK_MASTER_PORT" st.sparkPort, [])
    else if st.sparkHost ≠ "" ∧ st.sparkPort ≠ "" then
      .ok ("spark://" ++ st.sparkHost ++ ":" ++ st.sparkPort, [])
    else
      .ok (m, ["spark host: " ++ st.sparkHost,
               "spark port: " ++ st.sparkPort,
               "spark master: " ++ m,
               "Cannot build spark master."])

/-- The whole master-address discovery over the `.bashrc` lines. -/
def resolveSparkMaster (bashrcLines : List String) : Except String (String × List String) :=
  resolveMaster (bashrcLines.foldl parseBashrcLine {})

/-- `assemble_environment`.  `osEnv` is the process environment,
`getLocalPath` the external `configuration.get_local_path` accessor
(applied to the keys `"source"`, `"intermediate"`, `"final"`), and `table`
is `self.environment` on entry.  Returns the updated table and the logged
lines, or the raised exception.  When `processing.paths.source` or
`processing.paths.intermediate` is absent the source hands the `{}` default
to the external string-append helper, whose behaviour on a non-string is
undefined; this is embedded as an error. -/
def assemble_environment (osEnv : String → Option String) (cfg : Config)
    (bashrcLines : List String) (getLocalPath : String → String)
    (table : List (String × String)) :
    Except String (List (String × String) × List String) :=
  match resolveSparkMaster bashrcLines with
  | .error m => .error m
  | .ok (spark_master, logs) =>
    match cfg.processingPathsSource, cfg.processingPathsIntermediate with
    | some pathSource, some pathIntermediate =>
      let t := setEntry table "SPARK_MASTER" spark_master
      let t := setEntry t "C360_CLIENT"
        ((osEnv "C360_CLIENT").getD
          (cfg.generalClient.getD ((osEnv "C360_ENVIRONMENT").getD "")))
      let t := setEntry t "CB_DATA_BUCKET"
        ((osEnv "CB_DATA_BUCKET").getD (cfg.generalCouchbaseBucket.getD "c360"))
      let t := setEntry t "CB_INDEX_BUCKET"
        ((osEnv "CB_INDEX_BUCKET").getD (cfg.generalCouchbaseIndex.getD "c360"))
      let t := setEntry t "CB_STATISTICS_BUCKET"
        ((osEnv "CB_STATISTICS_BUCKET").getD
          (cfg.generalCouchbaseStatistics.getD "c360_statistics"))
      let t := setEntry t "S3_ENDPOINT"
        ((osEnv "S3_ENDPOINT").getD (cfg.generalS3Endpoint.getD ""))
      let t := setEntry t "S3_ACCESSKEY"
        ((osEnv "S3_ACCESSKEY").getD (cfg.generalS3Accesskey.getD ""))
      let t := setEntry t "S3_SECRETKEY"
        ((osEnv "S3_SECRETKEY").getD (cfg.generalS3Secretkey.getD "ignored"))
      let t := setEntry t "C360_SOURCE_PATH" (strappend pathSource "/")
      let t := setEntry t "C360_INTERMEDIATE_PATH" (strappend pathIntermediate "/")
      let t := setEntry t "C360_TARGET_PATH"
        (strappend (cfg.processingPathsFinal.getD "") "/")
      let t := setEntry t "C360_TEMP_PATH"
        (strappend (cfg.processingInternalTemporary.getD "") "/")
      let t := setEntry t "C360_LOCAL_SOURCE_PATH" (strappend (getLocalPath "source") "/")
      let t := setEntry t "C360_LOCAL_INTERMEDIATE_PATH"
        (strappend (getLocalPath "intermediate") "/")
      let t := setEntry t "C360_LOCAL_TARGET_PATH" (strappend (getLocalPath "final") "/")
      .ok (t, logs)
    | _, _ =>
      .error "TypeError: util.string.append applied to the dict default"

/-! ## The whole run (`main`) -/

/-- How a run can fail: `sys.exit` with a code, or a raised exception. -/
inductive RunError where
  | exit (code : Nat)
  | exception (msg : String)
deriving DecidableEq

/-- The constructor `ConfigSetter.__init__` up to the prerequisite check:
seeds the table with `PYTHONIOENCODING` (and `PATH` when the module path is
not already contained in the `PATH` variable), runs `check_prerequisites`,
and exits with status 1 when any prerequisite is missing. -/
def configSetterInit (osEnv : String → Option String) (modulePath : String) :
    Except RunError (List (String × String)) :=
  let t := [("PYTHONIOENCODING", "utf8")]
  let t := if strContains ((osEnv "PATH").getD "") modulePath then t
    else setEntry t "PATH" ("$\x7bPATH\x7d:" ++ modulePath)
  let r := check_prerequisites osEnv t
  if r.1 > 0 then .error (.exit 1) else .ok r.2.2

/-- `main`: construct the `ConfigSetter` (which aborts before producing any
output when a prerequisite is missing) and run `set_config`, collecting the
written files as (name, content) pairs.  The SSH-key materialisation is an
external collaborator writing secret material files and is omitted from the
output list. -/
def runMain (osEnv : String → Option String) (modulePath : String) (cfg : Config)
    (bashrcLines : List String) (getLocalPath : String → String) :
    Except RunError (List (String × String)) :=
  match configSetterInit osEnv modulePath with
  | .error e => .error e
  | .ok t0 =>
    match assemble_environment osEnv cfg bashrcLines getLocalPath t0 with
    | .error m => .error (.exception m)
    | .ok (t, _) =>
      match write_transfer_script t cfg.entities with
      | .error m => .error (.exception m)
      | .ok (dl, ul) =>
        .ok [(".c360cfg", configFileContent t),
             (".s3cfg", s3ConfigContent t),
             ("download_files.sh", dl),
             ("upload_files.sh", ul)]

/-! ## Infrastructure lemmas -/

theorem splitNl_ne_nil (l : List Char) : splitNl l ≠ [] := by
  induction l with
  | nil => simp [splitNl]
  | cons c cs ih =>
    simp only [splitNl]
    split
    · simp
    · split
      · simp
      · simp

theorem splitNl_append (a b : List Char) :
    splitNl (a ++ '\n' :: b) = splitNl a ++ splitNl b := by
  induction a with
  | nil => simp [splitNl]
  | cons c cs ih =>
    by_cases h : c = '\n'
    · subst h
      simp [splitNl, ih]
    · cases hcs : splitNl cs with
      | nil => exact absurd hcs (splitNl_ne_nil cs)
      | cons l ls => simp [splitNl, if_neg h, ih, hcs]

theorem splitNl_eq_single (l : List Char) (h : ∀ c ∈ l, ¬ c = '\n') :
    splitNl l = [l] := by
  induction l with
  | nil => rfl
  | cons c cs ih =>
    have hc : ¬ c = '\n' := h c (by simp)
    rw [splitNl, if_neg hc, ih fun x hx => h x (by simp [hx])]

theorem mk_data (s : String) : String.mk s.data = s := by
  cases s
  rfl

theorem joinLines_cons (l : String) (ls : List String) (h : ls ≠ []) :
    joinLines (l :: ls) = l ++ "\n" ++ joinLines ls := by
  cases ls with
  | nil => exact absurd rfl h
  | cons x xs => rfl

theorem data_append_newline (l j : String) :
    (l ++ "\n" ++ j).data = l.data ++ '\n' :: j.data := by
  simp [String.data_append, List.append_assoc]

theorem fileLines_joinLines (ls : List String) (h : ls ≠ []) :
    fileLines (joinLines ls) = ls.flatMap fileLines := by
  induction ls with
  | nil => exact absurd rfl h
  | cons l ls ih =>
    cases ls with
    | nil => simp [fileLines, joinLines]
    | cons x xs =>
      rw [joinLines_cons _ _ (by simp), List.flatMap_cons, ← ih (by simp)]
      show fileLines (l ++ "\n" ++ joinLines (x :: xs)) = _
      unfold fileLines
      rw [data_append_newline, splitNl_append, List.map_append]

theorem nlFree_iff (s : String) : nlFree s = true ↔ ∀ c ∈ s.data, ¬ c = '\n' := by
  simp [nlFree, List.all_eq_true]

theorem fileLines_of_nlFree (s : String) (h : nlFree s = true) :
    fileLines s = [s] := by
  unfold fileLines
  rw [splitNl_eq_single s.data ((nlFree_iff s).mp h)]
  simp [mk_data]

theorem nlFree_append (s t : String) :
    nlFree (s ++ t) = (nlFree s && nlFree t) := by
  simp [nlFree, String.data_append, List.all_append]

theorem countP_flatMap {α β : Type} (p : β → Bool) (f : α → List β) (l : List α) :
    (l.flatMap f).countP p = (l.map fun x => (f x).countP p).sum := by
  induction l with
  | nil => rfl
  | cons x xs ih => simp [List.flatMap_cons, List.countP_append, ih]

theorem strStarts_of_data (s pre : String) (r : List Char)
    (h : s.data = pre.data ++ r) : strStarts s pre = true := by
  unfold strStarts
  rw [h, List.isPrefixOf_iff_prefix]
  exact List.prefix_append _ _

theorem headChar_of_strStarts (s pre : String) (c : Char) (cs : List Char)
    (h : strStarts s pre = true) (hpre : pre.data = c :: cs) :
    headChar s = some c := by
  unfold strStarts at h
  rw [List.isPrefixOf_iff_prefix] at h
  obtain ⟨r, hr⟩ := h
  unfold headChar
  rw [← hr, hpre]
  rfl

theorem headChar_append (c : Char) (cs : List Char) (s t : String)
    (h : s.data = c :: cs) : headChar (s ++ t) = some c := by
  unfold headChar
  rw [String.data_append, h]
  rfl

theorem find?_map_set (k v : String) (t : List (String × String))
    (h : t.any (fun p => p.1 == k) = true) :
    (t.map fun p => if p.1 == k then (k, v) else p).find? (fun p => p.1 == k)
      = some (k, v) := by
  induction t with
  | nil => simp at h
  | cons p ps ih =>
    by_cases hp : (p.1 == k) = true
    · rw [List.map_cons, if_pos hp, List.find?_cons]
      simp
    · have hp' : (p.1 == k) = false := Bool.eq_false_iff.mpr hp
      simp only [List.any_cons, hp', Bool.false_or] at h
      rw [List.map_cons, if_neg hp, List.find?_cons]
      simp only [hp']
      exact ih h

theorem find?_append_none (k v : String) (t : List (String × String))
    (h : t.any (fun p => p.1 == k) = false) :
    (t ++ [(k, v)]).find? (fun p => p.1 == k) = some (k, v) := by
  induction t with
  | nil => simp [List.find?]
  | cons p ps ih =>
    simp only [List.any_cons, Bool.or_eq_false_iff] at h
    simp only [List.cons_append, List.find?_cons, h.1]
    exact ih h.2

theorem find?_map_set_ne (k k' v : String) (h : ¬ k' = k)
    (t : List (String × String)) :
    (t.map fun p => if p.1 == k' then (k', v) else p).find? (fun p => p.1 == k)
      = t.find? (fun p => p.1 == k) := by
  induction t with
  | nil => rfl
  | cons p ps ih =>
    by_cases hp : (p.1 == k') = true
    · have hk' : (k' == k) = false := by
        simp [h]
      have hpk : (p.1 == k) = false := by
        have h1 : p.1 = k' := by simpa using hp
        simp [h1, h]
      rw [List.map_cons, if_pos hp, List.find?_cons, List.find?_cons]
      simp only [hk', hpk]
      exact ih
    · have hp' : (p.1 == k') = false := Bool.eq_false_iff.mpr hp
      rw [List.map_cons, if_neg hp, List.find?_cons, List.find?_cons]
      by_cases hpk : (p.1 == k) = true
      · simp [hpk]
      · have hpk' : (p.1 == k) = false := Bool.eq_false_iff.mpr hpk
        simp only [hpk']
        exact ih

@[simp]
theorem lookupD_setEntry_self (t : List (String × String)) (k v d : String) :
    lookupD (setEntry t k v) k d = v := by
  unfold setEntry lookupD
  by_cases h : t.any (fun p => p.1 == k) = true
  · rw [if_pos h, find?_map_set k v t h]
  · rw [if_neg h, find?_append_none k v t (Bool.eq_false_iff.mpr h)]

@[simp]
theorem lookupD_setEntry_ne (t : List (String × String)) (k k' v d : String)
    (h : ¬ k' = k) : lookupD (setEntry t k' v) k d = lookupD t k d := by
  unfold setEntry lookupD
  by_cases ha : t.any (fun p => p.1 == k') = true
  · rw [if_pos ha, find?_map_set_ne k k' v h t]
  · rw [if_neg ha, List.find?_append]
    cases hf : t.find? (fun p => p.1 == k) with
    | some p => rfl
    | none =>
      have hk' : (k' == k) = false := by
        simp [h]
      simp [List.find?_cons, hk']

theorem suffix_append_single (l : List Char) (c : Char) :
    [c].isSuffixOf (l ++ [c]) = true := by
  rw [List.isSuffixOf_iff_suffix]
  exact List.suffix_append l [c]

theorem not_double_suffix (l : List Char) (c : Char)
    (h : [c].isSuffixOf l = false) : [c, c].isSuffixOf (l ++ [c]) = false := by
  cases hd : [c, c].isSuffixOf (l ++ [c]) with
  | false => rfl
  | true =>
    exfalso
    rw [List.isSuffixOf_iff_suffix] at hd
    obtain ⟨t, ht⟩ := hd
    have hrev := congrArg List.reverse ht
    simp only [List.reverse_append, List.reverse_cons, List.reverse_nil,
      List.nil_append, List.cons_append] at hrev
    have hl : l.reverse = c :: t.reverse := by
      have := (List.cons.inj hrev).2
      simpa using this.symm
    have hl2 : l = t ++ [c] := by
      have := congrArg List.reverse hl
      simpa using this
    have hsuf : [c].isSuffixOf l = true := by
      rw [List.isSuffixOf_iff_suffix, hl2]
      exact List.suffix_append t [c]
    rw [hsuf] at h
    exact Bool.noConfusion h

/-- Claim C7: path normalization maps the two alternate object-store scheme
markers to the canonical one (`s3a://bucket/x` and `s3n://bucket/x` both
yield `s3://bucket/x`), and the trailing-separator append is idempotent: an
input ending in `/` is returned unchanged, and an input lacking a trailing
`/` gains exactly one, never a doubled separator. -/
theorem claim_C7_theorem :
    normalizePath "s3a://bucket/x" = "s3://bucket/x" ∧
    normalizePath "s3n://bucket/x" = "s3://bucket/x" ∧
    ∀ s : String,
      ("/".data.isSuffixOf s.data = true → strappend s "/" = s) ∧
      ("/".data.isSuffixOf s.data = false →
        strappend s "/" = s ++ "/" ∧
        "//".data.isSuffixOf (strappend s "/").data = false) ∧
      strappend (strappend s "/") "/" = strappend s "/" := by
  refine ⟨by decide, by decide, fun s => ⟨fun h => ?_, fun h => ⟨?_, ?_⟩, ?_⟩⟩
  · unfold strappend
    rw [if_pos h]
  · unfold strappend
    rw [if_neg (by simp [h])]
  · have he : strappend s "/" = s ++ "/" := by
      unfold strappend
      rw [if_neg (by simp [h])]
    rw [he, String.data_append]
    exact not_double_suffix s.data '/' h
  · by_cases h : "/".data.isSuffixOf s.data = true
    · have he : strappend s "/" = s := by
        unfold strappend
        rw [if_pos h]
      rw [he, he]
    · have he : strappend s "/" = s ++ "/" := by
        unfold strappend
        rw [if_neg h]
      rw [he]
      unfold strappend
      rw [String.data_append, if_pos (suffix_append_single s.data '/')]

/-- Claim C7 witness: the theorem instantiated at the concrete inputs
`"data/"` (already terminated) and `"data"` (separator appended). -/
theorem claim_C7_witness :
    strappend "data/" "/" = "data/" ∧ strappend "data" "/" = "data" ++ "/" :=
  have h := claim_C7_theorem
  ⟨(h.2.2 "data/").1 (by decide), ((h.2.2 "data").2.1 (by decide)).1⟩

/-- Claim C2: the claim describes the intended fallback — a host startup
file defining only `SPARK_MASTER_HOST` and `SPARK_MASTER_PORT` should yield
`spark://host:port`, and a file yielding no usable address should be logged
and survived — but the code leaves the local variable `spark_master` unbound
whenever no line contains `SPARK_MASTER=`, so the first read of it raises
`UnboundLocalError` and `assemble_environment` aborts.  The theorem
evaluates the embedded code at the claim's own scenario. -/
theorem claim_C2_theorem :
    resolveSparkMaster ["SPARK_MASTER_HOST=myhost", "SPARK_MASTER_PORT=7077"]
      = .error "UnboundLocalError: local variable spark_master referenced before assignment" ∧
    assemble_environment (fun _ => none)
      ⟨none, none, none, none, none, none, none,
       some "/data/src", some "/data/int", some "/data/out", some "/data/tmp", []⟩
      ["SPARK_MASTER_HOST=myhost", "SPARK_MASTER_PORT=7077"] (fun _ => "") []
      = .error "UnboundLocalError: local variable spark_master referenced before assignment" :=
  ⟨rfl, rfl⟩

theorem replAux_head_not_mem (c : Char) (p rep : List Char) :
    ∀ s : List Char, c ∉ s → replAux (c :: p) rep s 0 = s := by
  intro s
  induction s with
  | nil => intro _; rfl
  | cons d ds ih =>
    intro h
    have hcond : ¬ ((c :: p).isPrefixOf (d :: ds) = true ∧ ¬ (c :: p) = []) := by
      rintro ⟨h1, -⟩
      rw [List.isPrefixOf_iff_prefix] at h1
      obtain ⟨t, ht⟩ := h1
      simp only [List.cons_append, List.cons.injEq] at ht
      exact h (ht.1 ▸ List.mem_cons_self d ds)
    rw [replAux, if_neg hcond, ih fun hc => h (List.mem_cons_of_mem d hc)]

theorem pyReplace_head_not_mem (s pat rep : String) (c : Char) (p : List Char)
    (hpat : pat.data = c :: p) (h : ¬ c ∈ s.data) : pyReplace s pat rep = s := by
  unfold pyReplace listReplace
  rw [hpat, replAux_head_not_mem c p rep.data s.data h, mk_data]

/-- Claim C3 counterexample: for the host file assigning the template
`SPARK_MASTER=local://$SPARK_MASTER_HOST:$SPARK_MASTER_PORT` with parsed
host `h` and port `p`, the code produces `spark://h:p`, while the value with
the placeholders substituted (which the claim promises) is `local://h:p`. -/
theorem claim_C3_counterexample :
    resolveSparkMaster
      ["SPARK_MASTER_HOST=h", "SPARK_MASTER_PORT=p",
       "SPARK_MASTER=local://$SPARK_MASTER_HOST:$SPARK_MASTER_PORT"]
      = .ok ("spark://h:p", []) ∧
    pyReplace (pyReplace "local://$SPARK_MASTER_HOST:$SPARK_MASTER_PORT"
        "$SPARK_MASTER_HOST" "h") "$SPARK_MASTER_PORT" "p" = "local://h:p" ∧
    ¬ ("spark://h:p" : String) = "local://h:p" :=
  ⟨rfl, rfl, by decide⟩

/-- Claim C3 as amended: for every host startup file that assigns
`SPARK_MASTER` (last assignment wins), a non-empty assigned value without a
`$` character is used verbatim (the placeholder substitutions are no-ops on
it); an assigned value containing `$` is NOT substituted into — instead,
when both parsed host and port are non-empty the entry becomes
`spark://host:port`, discarding the assigned value, and otherwise the raw
assigned value is stored after logging the three raw values and an error. -/
theorem claim_C3_theorem (lines : List String) (st : BashrcState) (m : String)
    (hst : lines.foldl parseBashrcLine ⟨"", "", none⟩ = st)
    (hm : st.sparkMaster = some m) :
    (¬ m = "" → m.data.contains '$' = false →
      resolveSparkMaster lines = .ok (m, [])) ∧
    (m.data.contains '$' = true → ¬ st.sparkHost = "" → ¬ st.sparkPort = "" →
      resolveSparkMaster lines
        = .ok ("spark://" ++ st.sparkHost ++ ":" ++ st.sparkPort, [])) ∧
    ((m = "" ∨ m.data.contains '$' = true) →
      (st.sparkHost = "" ∨ st.sparkPort = "") →
      resolveSparkMaster lines
        = .ok (m, ["spark host: " ++ st.sparkHost,
                   "spark port: " ++ st.sparkPort,
                   "spark master: " ++ m,
                   "Cannot build spark master."])) := by
  unfold resolveSparkMaster
  rw [hst]
  unfold resolveMaster
  simp only [hm]
  refine ⟨fun h1 h2 => ?_, fun h1 h2 h3 => ?_, fun h1 h2 => ?_⟩
  · have hd : ¬ '$' ∈ m.data := by simpa using h2
    rw [if_pos ⟨h1, by simpa using hd⟩]
    rw [pyReplace_head_not_mem m _ _ '$' _ rfl hd,
      pyReplace_head_not_mem m _ _ '$' _ rfl hd]
  · have hd : '$' ∈ m.data := by simpa using h1
    rw [if_neg (by simp [hd]), if_pos ⟨h2, h3⟩]
  · have hnot : ¬ (¬ m = "" ∧ ¬ m.data.contains '$' = true) := by
      rcases h1 with h1 | h1
      · simp [h1]
      · have hd : '$' ∈ m.data := by simpa using h1
        simp [hd]
    rw [if_neg hnot, if_neg (by rcases h2 with h2 | h2 <;> simp [h2])]

/-- Claim C3 witness: the verbatim branch at a concrete host file whose
`SPARK_MASTER` value contains no placeholder. -/
theorem claim_C3_witness :
    resolveSparkMaster ["SPARK_MASTER=spark://x:7"] = .ok ("spark://x:7", []) :=
  have h := claim_C3_theorem ["SPARK_MASTER=spark://x:7"]
    ⟨"", "", some "spark://x:7"⟩ "spark://x:7" rfl rfl
  h.1 (by decide) (by decide)

theorem nlFree_exportLine (p : String × String) (h1 : nlFree p.1 = true)
    (h2 : nlFree p.2 = true) : nlFree (exportLine p) = true := by
  unfold exportLine
  by_cases hs : p.1 = "CB_PASSWORD" ∨ p.1 = "ENCRYPTION_KEY"
  · rw [if_pos hs]
    simp [nlFree_append, h1, h2]
    decide
  · rw [if_neg hs]
    simp [nlFree_append, h1, h2]
    decide

/-- Claim C9: the configuration export file contains exactly one
`export KEY=...` line per table entry, in insertion order (plus the final
empty chunk after the last newline); exactly the two secret-bearing keys
`CB_PASSWORD` and `ENCRYPTION_KEY` get single quotes, every other key
double quotes, so a secret value containing a space appears verbatim
between single quotes. -/
theorem claim_C9_theorem (t : List (String × String))
    (h : ∀ p ∈ t, nlFree p.1 = true ∧ nlFree p.2 = true) :
    fileLines (configFileContent t) = t.map exportLine ++ [""] ∧
    (∀ p ∈ t, (p.1 = "CB_PASSWORD" ∨ p.1 = "ENCRYPTION_KEY") →
      exportLine p = "export " ++ p.1 ++ "=" ++ "\x27" ++ p.2 ++ "\x27") ∧
    (∀ p ∈ t, ¬ (p.1 = "CB_PASSWORD" ∨ p.1 = "ENCRYPTION_KEY") →
      exportLine p = "export " ++ p.1 ++ "=" ++ "\x22" ++ p.2 ++ "\x22") := by
  refine ⟨?_, fun p _ hs => ?_, fun p _ hs => ?_⟩
  · induction t with
    | nil => rfl
    | cons p ps ih =>
      have hp := h p (by simp)
      have hline : fileLines (exportLine p) = [exportLine p] :=
        fileLines_of_nlFree _ (nlFree_exportLine p hp.1 hp.2)
      unfold configFileContent fileLines
      rw [data_append_newline, splitNl_append, List.map_append]
      unfold fileLines at hline ih
      rw [hline, ih fun q hq => h q (by simp [hq])]
      simp
  · unfold exportLine
    rw [if_pos hs]
  · unfold exportLine
    rw [if_neg hs]

/-- Claim C9 witness: the theorem at a concrete table holding an ordinary
key and a secret whose value contains a space. -/
theorem claim_C9_witness :
    fileLines (configFileContent [("CB_HOST", "db1"), ("CB_PASSWORD", "my secret")])
      = [("CB_HOST", "db1"), ("CB_PASSWORD", "my secret")].map exportLine ++ [""] ∧
    exportLine ("CB_PASSWORD", "my secret")
      = "export " ++ "CB_PASSWORD" ++ "=" ++ "\x27" ++ "my secret" ++ "\x27" :=
  have hc := claim_C9_theorem [("CB_HOST", "db1"), ("CB_PASSWORD", "my secret")]
    (by decide)
  ⟨hc.1, hc.2.1 ("CB_PASSWORD", "my secret") (by decide) (by decide)⟩

/-- The table component of the `check_prerequisites` loop in isolation:
present variables are copied in order. -/
def tableFold (osEnv : String → Option String) (vars : List String)
    (t0 : List (String × String)) : List (String × String) :=
  vars.foldl
    (fun t v => if isMissing osEnv v then t else setEntry t v ((osEnv v).getD "")) t0

theorem checkFold_spec (osEnv : String → Option String) (vars : List String) :
    ∀ (n0 : Nat) (ls0 : List String) (t0 : List (String × String)),
    vars.foldl (checkStep osEnv) (n0, ls0, t0)
      = (n0 + (vars.filter fun v => isMissing osEnv v).length,
         ls0 ++ (vars.filter fun v => isMissing osEnv v).map missingMsg,
         tableFold osEnv vars t0) := by
  induction vars with
  | nil => intro n0 ls0 t0; simp [tableFold]
  | cons w ws ih =>
    intro n0 ls0 t0
    by_cases hw : isMissing osEnv w = true
    · rw [List.foldl_cons]
      rw [show checkStep osEnv (n0, ls0, t0) w
          = (n0 + 1, ls0 ++ [missingMsg w], t0) by simp [checkStep, hw]]
      rw [ih]
      simp [List.filter_cons, hw, tableFold, Nat.add_assoc, Nat.add_comm 1]
    · have hw' : isMissing osEnv w = false := Bool.eq_false_iff.mpr hw
      rw [List.foldl_cons]
      rw [show checkStep osEnv (n0, ls0, t0) w
          = (n0, ls0, setEntry t0 w ((osEnv w).getD "")) by simp [checkStep, hw']]
      rw [ih]
      simp [List.filter_cons, hw', tableFold]

theorem setEntry_no_key (t : List (String × String)) (w x v : String)
    (ht : ∀ p ∈ t, ¬ p.1 = v) (hw : ¬ w = v) :
    ∀ p ∈ setEntry t w x, ¬ p.1 = v := by
  intro p hp
  unfold setEntry at hp
  split at hp
  · rw [List.mem_map] at hp
    obtain ⟨q, hq, hqe⟩ := hp
    by_cases hqk : (q.1 == w) = true
    · rw [if_pos hqk] at hqe
      rw [← hqe]
      exact hw
    · rw [if_neg hqk] at hqe
      exact hqe ▸ ht q hq
  · rw [List.mem_append] at hp
    rcases hp with hp | hp
    · exact ht p hp
    · simp at hp
      rw [hp]
      exact hw

theorem tableFold_cons (osEnv : String → Option String) (w : String)
    (ws : List String) (t0 : List (String × String)) :
    tableFold osEnv (w :: ws) t0
      = tableFold osEnv ws
          (if isMissing osEnv w then t0 else setEntry t0 w ((osEnv w).getD "")) := rfl

theorem tableFold_no_key (osEnv : String → Option String) (v : String)
    (hmiss : isMissing osEnv v = true) :
    ∀ (vars : List String) (t0 : List (String × String)),
    (∀ p ∈ t0, ¬ p.1 = v) → ∀ p ∈ tableFold osEnv vars t0, ¬ p.1 = v := by
  intro vars
  induction vars with
  | nil => intro t0 ht0; exact ht0
  | cons w ws ih =>
    intro t0 ht0
    rw [tableFold_cons]
    by_cases hw : isMissing osEnv w = true
    · rw [if_pos hw]
      exact ih t0 ht0
    · rw [if_neg hw]
      refine ih _ (setEntry_no_key t0 w _ v ht0 ?_)
      intro he
      rw [he, hmiss] at hw
      exact hw rfl

theorem tableFold_preserve (osEnv : String → Option String) (v d : String) :
    ∀ (vars : List String) (t0 : List (String × String)), ¬ v ∈ vars →
    lookupD (tableFold osEnv vars t0) v d = lookupD t0 v d := by
  intro vars
  induction vars with
  | nil => intro t0 _; rfl
  | cons w ws ih =>
    intro t0 hv
    rw [tableFold_cons]
    by_cases hw : isMissing osEnv w = true
    · rw [if_pos hw]
      exact ih t0 fun hc => hv (by simp [hc])
    · rw [if_neg hw]
      rw [ih _ fun hc => hv (by simp [hc])]
      exact lookupD_setEntry_ne t0 v w _ d fun he => hv (by simp [he])

theorem lookupD_tableFold (osEnv : String → Option String) (v : String)
    (hm : isMissing osEnv v = false) :
    ∀ (vars : List String) (t0 : List (String × String)), vars.Nodup → v ∈ vars →
    lookupD (tableFold osEnv vars t0) v "" = (osEnv v).getD "" := by
  intro vars
  induction vars with
  | nil => intro t0 _ hv; exact absurd hv (by simp)
  | cons w ws ih =>
    intro t0 hnd hv
    rw [tableFold_cons]
    by_cases he : w = v
    · subst he
      rw [if_neg (by rw [hm]; exact Bool.noConfusion)]
      have hnin : ¬ w ∈ ws := (List.nodup_cons.mp hnd).1
      rw [tableFold_preserve osEnv w "" ws _ hnin, lookupD_setEntry_self]
    · have hv' : v ∈ ws := by
        rcases List.mem_cons.mp hv with h | h
        · exact absurd h.symm he
        · exact h
      by_cases hw : isMissing osEnv w = true
      · rw [if_pos hw]
        exact ih t0 (List.nodup_cons.mp hnd).2 hv'
      · rw [if_neg hw]
        exact ih _ (List.nodup_cons.mp hnd).2 hv'

theorem foldl_congr_fn {α β : Type} (f g : α → β → α) :
    ∀ (l : List β), (∀ a : α, ∀ b ∈ l, f a b = g a b) →
    ∀ init : α, l.foldl f init = l.foldl g init := by
  intro l
  induction l with
  | nil => intro _ _; rfl
  | cons b bs ih =>
    intro h init
    rw [List.foldl_cons, List.foldl_cons, h init b (by simp)]
    exact ih (fun a b' hb' => h a b' (by simp [hb'])) _

theorem missingMsg_injective : Function.Injective missingMsg := by
  intro a b hab
  unfold missingMsg at hab
  have := congrArg String.data hab
  simp only [String.data_append] at this
  have := List.append_cancel_left this
  exact String.ext this

/-- Claim C10: a prerequisite variable present in the process environment
with an empty-string value is counted as missing, logged, and not copied
into the table; in fact `check_prerequisites` cannot distinguish it from the
variable being unset. -/
theorem claim_C10_theorem (osEnv : String → Option String)
    (t0 : List (String × String)) (v : String)
    (hv : osEnv v = some "") (hmem : v ∈ prerequisite_environment_variables)
    (ht0 : ∀ p ∈ t0, ¬ p.1 = v) :
    isMissing osEnv v = true ∧
    missingMsg v ∈ (check_prerequisites osEnv t0).2.1 ∧
    (∀ p ∈ (check_prerequisites osEnv t0).2.2, ¬ p.1 = v) ∧
    check_prerequisites osEnv t0
      = check_prerequisites (fun k => if k = v then none else osEnv k) t0 := by
  have hmiss : isMissing osEnv v = true := by
    unfold isMissing
    rw [hv]
    rfl
  refine ⟨hmiss, ?_, ?_, ?_⟩
  · unfold check_prerequisites
    rw [checkFold_spec]
    simp only [List.mem_append]
    right
    rw [List.mem_map]
    exact ⟨v, List.mem_filter.mpr ⟨hmem, hmiss⟩, rfl⟩
  · unfold check_prerequisites
    rw [checkFold_spec]
    exact tableFold_no_key osEnv v hmiss _ t0 ht0
  · unfold check_prerequisites
    apply foldl_congr_fn
    intro acc w _
    unfold checkStep isMissing
    by_cases he : w = v
    · subst he
      rw [hv]
      simp
    · simp [if_neg he]

/-- Claim C10 witness: the theorem at a concrete environment where
`CB_USER` is set to the empty string. -/
theorem claim_C10_witness :
    missingMsg "CB_USER"
      ∈ (check_prerequisites (fun k => if k = "CB_USER" then some "" else some "x") []).2.1 :=
  have h := claim_C10_theorem
    (fun k => if k = "CB_USER" then some "" else some "x") []
    "CB_USER" (by decide) (by decide) (by simp)
  h.2.1

/-- Claim C6: for any subset of the mandatory variables left unset (with
the others set to usable values), `check_prerequisites` returns a missing
count equal to the subset's size, logs one line per missing variable (each
name exactly once), copies every present variable into the table, and a
non-zero count makes the run exit with status 1 before any output file
exists. -/
theorem claim_C6_theorem (osEnv : String → Option String)
    (t0 : List (String × String)) (modulePath : String) (cfg : Config)
    (bashrcLines : List String) (getLocalPath : String → String)
    (unset : List String) (hnd : unset.Nodup)
    (hsub : ∀ v ∈ unset, v ∈ prerequisite_environment_variables)
    (hchar : ∀ v ∈ prerequisite_environment_variables,
      (isMissing osEnv v = true ↔ v ∈ unset)) :
    (check_prerequisites osEnv t0).1 = unset.length ∧
    (check_prerequisites osEnv t0).2.1
      = (prerequisite_environment_variables.filter
          fun v => isMissing osEnv v).map missingMsg ∧
    (∀ v ∈ unset, ((check_prerequisites osEnv t0).2.1).count (missingMsg v) = 1) ∧
    (∀ v ∈ prerequisite_environment_variables, isMissing osEnv v = false →
      lookupD (check_prerequisites osEnv t0).2.2 v "" = (osEnv v).getD "") ∧
    (0 < unset.length →
      runMain osEnv modulePath cfg bashrcLines getLocalPath = .error (.exit 1)) := by
  have hpnd : prerequisite_environment_variables.Nodup := by decide
  have hfnd : (prerequisite_environment_variables.filter
      fun v => isMissing osEnv v).Nodup := hpnd.filter _
  have hmemiff : ∀ a, a ∈ (prerequisite_environment_variables.filter
      fun v => isMissing osEnv v) ↔ a ∈ unset := by
    intro a
    rw [List.mem_filter]
    constructor
    · rintro ⟨ha, hm⟩
      exact (hchar a ha).mp hm
    · intro ha
      exact ⟨hsub a ha, (hchar a (hsub a ha)).mpr ha⟩
  have hperm : (prerequisite_environment_variables.filter
      fun v => isMissing osEnv v).Perm unset :=
    (List.perm_ext_iff_of_nodup hfnd hnd).mpr hmemiff
  have hlen : (prerequisite_environment_variables.filter
      fun v => isMissing osEnv v).length = unset.length := hperm.length_eq
  have hcount : ∀ t : List (String × String),
      check_prerequisites osEnv t
        = ((prerequisite_environment_variables.filter
            fun v => isMissing osEnv v).length,
           (prerequisite_environment_variables.filter
            fun v => isMissing osEnv v).map missingMsg,
           tableFold osEnv prerequisite_environment_variables t) := by
    intro t
    unfold check_prerequisites
    rw [checkFold_spec]
    simp
  refine ⟨?_, ?_, fun v hv => ?_, fun v hv hm => ?_, fun hpos => ?_⟩
  · rw [hcount]
    exact hlen
  · rw [hcount]
  · rw [hcount]
    simp only
    rw [List.count_map_of_injective _ missingMsg missingMsg_injective]
    exact List.count_eq_one_of_mem hfnd ((hmemiff v).mpr hv)
  · rw [hcount]
    exact lookupD_tableFold osEnv v hm prerequisite_environment_variables t0 hpnd hv
  · have hinit : configSetterInit osEnv modulePath = .error (.exit 1) := by
      unfold configSetterInit
      dsimp only
      rw [hcount, hlen]
      rw [if_pos hpos]
    unfold runMain
    rw [hinit]

/-- Claim C6 witness: the theorem at a concrete environment with exactly
`CB_USER` and `ENCRYPTION_KEY` unset. -/
theorem claim_C6_witness :
    (check_prerequisites
      (fun k => if k = "CB_USER" then none else if k = "ENCRYPTION_KEY" then none else some "x")
      []).1 = (["CB_USER", "ENCRYPTION_KEY"] : List String).length ∧
    (0 < (["CB_USER", "ENCRYPTION_KEY"] : List String).length →
      runMain
        (fun k => if k = "CB_USER" then none else if k = "ENCRYPTION_KEY" then none else some "x")
        "/opt/mod" ⟨none, none, none, none, none, none, none, none, none, none, none, []⟩
        [] (fun _ => "") = .error (.exit 1)) :=
  have hc := claim_C6_theorem
    (fun k => if k = "CB_USER" then none else if k = "ENCRYPTION_KEY" then none else some "x")
    [] "/opt/mod" ⟨none, none, none, none, none, none, none, none, none, none, none, []⟩
    [] (fun _ => "") ["CB_USER", "ENCRYPTION_KEY"] (by decide) (by decide) (by decide)
  ⟨hc.1, hc.2.2.2.2⟩

/-- Claim C1 counterexample: with `C360_SOURCE_PATH` set in the process
environment and `processing.paths.source` present in the configuration
store, the assembled value comes from the store (with the separator
appended), not from the environment — the claimed environment-first
precedence fails for the derived path keys. -/
theorem claim_C1_counterexample :
    (assemble_environment
        (fun k => if k = "C360_SOURCE_PATH" then some "env value" else none)
        ⟨none, none, none, none, none, none, none,
         some "cfgpath", some "i", some "f", some "tmp", []⟩
        ["SPARK_MASTER=spark://h:7077"] (fun _ => "") []).map
        (fun r => lookupD r.1 "C360_SOURCE_PATH" "")
      = .ok "cfgpath/" ∧
    (fun k => if k = "C360_SOURCE_PATH" then some "env value" else none)
      "C360_SOURCE_PATH" = some "env value" ∧
    ¬ ("cfgpath/" : String) = "env value" :=
  ⟨rfl, rfl, by decide⟩

/-- Claim C1 as amended: the three-tier precedence (process environment,
else configuration store, else hard-coded default) holds independently for
`C360_CLIENT` (whose default is itself the environment's
`C360_ENVIRONMENT`), `CB_DATA_BUCKET`, `CB_INDEX_BUCKET`,
`CB_STATISTICS_BUCKET`, `S3_ENDPOINT`, `S3_ACCESSKEY` and `S3_SECRETKEY`;
but the four derived path keys `C360_SOURCE_PATH`, `C360_INTERMEDIATE_PATH`,
`C360_TARGET_PATH` and `C360_TEMP_PATH` never consult the process
environment: they take the configuration-store value alone (separator
appended; the latter two default to the empty string when absent). -/
theorem claim_C1_theorem (osEnv : String → Option String) (cfg : Config)
    (bashrcLines : List String) (getLocalPath : String → String)
    (table : List (String × String)) (m : String) (lg : List String)
    (ps pi : String)
    (hm : resolveSparkMaster bashrcLines = .ok (m, lg))
    (hs : cfg.processingPathsSource = some ps)
    (hi : cfg.processingPathsIntermediate = some pi) :
    ∃ t, assemble_environment osEnv cfg bashrcLines getLocalPath table
        = .ok (t, lg) ∧
      lookupD t "C360_CLIENT" ""
        = (osEnv "C360_CLIENT").getD
            (cfg.generalClient.getD ((osEnv "C360_ENVIRONMENT").getD "")) ∧
      lookupD t "CB_DATA_BUCKET" ""
        = (osEnv "CB_DATA_BUCKET").getD (cfg.generalCouchbaseBucket.getD "c360") ∧
      lookupD t "CB_INDEX_BUCKET" ""
        = (osEnv "CB_INDEX_BUCKET").getD (cfg.generalCouchbaseIndex.getD "c360") ∧
      lookupD t "CB_STATISTICS_BUCKET" ""
        = (osEnv "CB_STATISTICS_BUCKET").getD
            (cfg.generalCouchbaseStatistics.getD "c360_statistics") ∧
      lookupD t "S3_ENDPOINT" ""
        = (osEnv "S3_ENDPOINT").getD (cfg.generalS3Endpoint.getD "") ∧
      lookupD t "S3_ACCESSKEY" ""
        = (osEnv "S3_ACCESSKEY").getD (cfg.generalS3Accesskey.getD "") ∧
      lookupD t "S3_SECRETKEY" ""
        = (osEnv "S3_SECRETKEY").getD (cfg.generalS3Secretkey.getD "ignored") ∧
      lookupD t "C360_SOURCE_PATH" "" = strappend ps "/" ∧
      lookupD t "C360_INTERMEDIATE_PATH" "" = strappend pi "/" ∧
      lookupD t "C360_TARGET_PATH" ""
        = strappend (cfg.processingPathsFinal.getD "") "/" ∧
      lookupD t "C360_TEMP_PATH" ""
        = strappend (cfg.processingInternalTemporary.getD "") "/" := by
  simp only [assemble_environment, hm, hs, hi]
  refine ⟨_, rfl, ?_, ?_, ?_, ?_, ?_, ?_, ?_, ?_, ?_, ?_, ?_⟩ <;>
    simp

/-- Claim C1 witness: the amended theorem at a concrete configuration where
the process environment sets `C360_CLIENT` and the store provides the four
paths. -/
theorem claim_C1_witness :
    ∃ t, assemble_environment
        (fun k => if k = "C360_CLIENT" then some "cli" else none)
        ⟨none, some "bkt", none, none, none, none, none,
         some "cfgpath", some "i", some "f", some "tmp", []⟩
        ["SPARK_MASTER=spark://a:1"] (fun _ => "lp") []
        = .ok (t, []) ∧
      lookupD t "C360_CLIENT" "" = "cli" ∧
      lookupD t "CB_DATA_BUCKET" "" = "bkt" ∧
      lookupD t "C360_SOURCE_PATH" "" = "cfgpath/" :=
  have hc := claim_C1_theorem
    (fun k => if k = "C360_CLIENT" then some "cli" else none)
    ⟨none, some "bkt", none, none, none, none, none,
     some "cfgpath", some "i", some "f", some "tmp", []⟩
    ["SPARK_MASTER=spark://a:1"] (fun _ => "lp") []
    "spark://a:1" [] "cfgpath" "i" rfl rfl rfl
  by
    obtain ⟨t, h0, h1, h2, h3, h4, h5, h6, h7, h8, h9, h10, h11⟩ := hc
    exact ⟨t, h0, h1, h2, h8⟩

/-! ## Shape of the transfer scripts on well-formed catalogs -/

/-- The element(s) `entityLines` emits for a well-shaped entry. -/
def entityLinesOk (source_path : String) (e : String × EntityData) : List String :=
  match e.2 with
  | .flat fs => [joinLines (fs.map (fetchCmd source_path))]
  | .nested ks => ks.map fun kpi => joinLines (kpi.map (fetchCmd source_path))

theorem entityLines_wf (S : String) (e : String × EntityData)
    (h : wfEntry e = true) : entityLines S e = .ok (entityLinesOk S e) := by
  obtain ⟨n, d⟩ := e
  cases d with
  | flat fs =>
    have hn : ¬ n = "kpis" := by simpa [wfEntry] using h
    simp [entityLines, entityLinesOk, hn]
  | nested ks =>
    have hn : n = "kpis" := by simpa [wfEntry] using h
    simp [entityLines, entityLinesOk, hn]

theorem entitiesFetchBlocks_wf (S : String) (es : List (String × EntityData))
    (h : wfCatalog es = true) :
    entitiesFetchBlocks S es = .ok (es.map (entityLinesOk S)) := by
  induction es with
  | nil => rfl
  | cons e es ih =>
    unfold wfCatalog at h
    rw [List.all_cons, Bool.and_eq_true] at h
    unfold entitiesFetchBlocks
    rw [entityLines_wf S e h.1, ih h.2]
    rfl

theorem entity_download_block_wf (T S : String) (es : List (String × EntityData))
    (h : wfCatalog es = true) :
    entity_download_block T S es
      = .ok (if strStarts S "s3" then
          ("[ -d \x22" ++ T ++ "raw\x22 ] && cd " ++ T ++ "raw && pwd")
            :: (es.map (entityLinesOk S)).flatten
        else []) := by
  unfold entity_download_block
  by_cases hS : strStarts S "s3" = true
  · rw [if_pos hS, if_pos hS, entitiesFetchBlocks_wf S es h]
  · rw [if_neg hS, if_neg hS]

/-- The elements of `download_lines` on a well-shaped catalog. -/
def download_linesOk (temporary_path source_path intermediate_path : String)
    (entities : List (String × EntityData)) : List String :=
  ["#!/bin/bash",
   "mkdir -p " ++ temporary_path ++ "raw " ++ temporary_path ++ "parquet "
     ++ temporary_path ++ "json"]
  ++ index_download_block temporary_path intermediate_path
  ++ (if strStarts source_path "s3" then
      ("[ -d \x22" ++ temporary_path ++ "raw\x22 ] && cd " ++ temporary_path
         ++ "raw && pwd")
        :: (entities.map (entityLinesOk source_path)).flatten
    else [])

theorem download_lines_wf (T S I : String) (es : List (String × EntityData))
    (h : wfCatalog es = true) :
    download_lines T S I es = .ok (download_linesOk T S I es) := by
  unfold download_lines download_linesOk
  rw [entity_download_block_wf T S es h]

/-- The normalized temporary path read by `write_transfer_script`. -/
def tempPathOf (env : List (String × String)) : String :=
  normalizePath (lookupD env "C360_TEMP_PATH" "/nfsmount/")

/-- The normalized source path read by `write_transfer_script`. -/
def sourcePathOf (env : List (String × String)) : String :=
  normalizePath (lookupD env "C360_SOURCE_PATH" "/nfsmount/")

/-- The normalized intermediate path read by `write_transfer_script`. -/
def intermediatePathOf (env : List (String × String)) : String :=
  normalizePath (lookupD env "C360_INTERMEDIATE_PATH" "/nfsmount/")

/-- The normalized target path read by `write_transfer_script`. -/
def targetPathOf (env : List (String × String)) : String :=
  normalizePath (lookupD env "C360_TARGET_PATH" "/nfsmount/")

theorem write_transfer_script_wf (env : List (String × String))
    (es : List (String × EntityData)) (h : wfCatalog es = true) :
    write_transfer_script env es
      = .ok (joinLines (download_linesOk (tempPathOf env) (sourcePathOf env)
               (intermediatePathOf env) es),
             joinLines (upload_lines (tempPathOf env) (intermediatePathOf env)
               (targetPathOf env))) := by
  unfold write_transfer_script tempPathOf sourcePathOf intermediatePathOf targetPathOf
  dsimp only
  rw [download_lines_wf _ _ _ es h]

/-- Claim C8: a path triggers staging lines exactly when its normalized
form starts with the object-store scheme marker `"s3"`: with local source
and intermediate paths the download script is just the interpreter marker
and the mkdir preamble; with local intermediate and target paths the upload
script is just the interpreter marker; with a remote source, intermediate
or target path the corresponding staging block (witnessed by its leading
line) is present. -/
theorem claim_C8_theorem (env : List (String × String))
    (entities : List (String × EntityData)) (hwf : wfCatalog entities = true)
    (T S I G : String)
    (hT : T = tempPathOf env) (hS : S = sourcePathOf env)
    (hI : I = intermediatePathOf env) (hG : G = targetPathOf env) :
    ∃ dl ul, write_transfer_script env entities = .ok (dl, ul) ∧
      (strStarts S "s3" = false → strStarts I "s3" = false →
        dl = joinLines ["#!/bin/bash",
          "mkdir -p " ++ T ++ "raw " ++ T ++ "parquet " ++ T ++ "json"]) ∧
      (strStarts I "s3" = false → strStarts G "s3" = false →
        ul = "#!/bin/bash") ∧
      (strStarts S "s3" = true →
        ("[ -d \x22" ++ T ++ "raw\x22 ] && cd " ++ T ++ "raw && pwd")
          ∈ download_linesOk T S I entities) ∧
      (strStarts I "s3" = true →
        ("[ -d \x22" ++ T ++ "parquet\x22 ] && cd " ++ T ++ "parquet")
          ∈ upload_lines T I G) ∧
      (strStarts G "s3" = true →
        ("cd " ++ T ++ "json || (echo \x22Cannot find " ++ T
            ++ " for uploading final documents.\x22; exit 1)")
          ∈ upload_lines T I G) := by
  subst hT hS hI hG
  refine ⟨_, _, write_transfer_script_wf env entities hwf,
    fun h1 h2 => ?_, fun h1 h2 => ?_, fun h1 => ?_, fun h1 => ?_, fun h1 => ?_⟩
  · unfold download_linesOk index_download_block
    rw [if_neg (by simp [h2]), if_neg (by simp [h1])]
    rfl
  · unfold upload_lines index_upload_block target_upload_block
    rw [if_neg (by simp [h1]), if_neg (by simp [h2])]
    rfl
  · unfold download_linesOk
    rw [if_pos h1]
    simp
  · unfold upload_lines index_upload_block
    rw [if_pos h1]
    simp
  · unfold upload_lines target_upload_block
    rw [if_pos h1]
    simp

/-- Claim C8 witness: the theorem at a concrete table with a remote source
and target and a local intermediate path. -/
theorem claim_C8_witness :
    ∃ dl ul, write_transfer_script
      [("C360_TEMP_PATH", "/tmp/c/"), ("C360_SOURCE_PATH", "s3a://b/src/"),
       ("C360_INTERMEDIATE_PATH", "/nfs/i/"), ("C360_TARGET_PATH", "s3://b/out/")]
      [("customers", .flat ["a.csv"])] = .ok (dl, ul) ∧
    ("[ -d \x22/tmp/c/raw\x22 ] && cd /tmp/c/raw && pwd"
      ∈ download_linesOk "/tmp/c/" "s3://b/src/" "/nfs/i/"
          [("customers", .flat ["a.csv"])]) := by
  have hc := claim_C8_theorem
    [("C360_TEMP_PATH", "/tmp/c/"), ("C360_SOURCE_PATH", "s3a://b/src/"),
     ("C360_INTERMEDIATE_PATH", "/nfs/i/"), ("C360_TARGET_PATH", "s3://b/out/")]
    [("customers", .flat ["a.csv"])] (by decide)
    "/tmp/c/" "s3://b/src/" "/nfs/i/" "s3://b/out/" rfl rfl rfl rfl
  obtain ⟨dl, ul, h0, h1, h2, h3, h4, h5⟩ := hc
  exact ⟨dl, ul, h0, h3 (by decide)⟩

/-! ## Counting and classifying script lines -/

theorem strStarts_append (pre t : String) : strStarts (pre ++ t) pre = true :=
  strStarts_of_data _ _ t.data (String.data_append _ _)

theorem strStarts_append_left (s t pre : String) (h : strStarts s pre = true) :
    strStarts (s ++ t) pre = true := by
  unfold strStarts at *
  rw [List.isPrefixOf_iff_prefix] at *
  rw [String.data_append]
  exact h.trans (List.prefix_append _ _)

theorem headChar_append_of_head (s t : String) (c : Char)
    (h : headChar s = some c) : headChar (s ++ t) = some c := by
  unfold headChar at *
  rw [String.data_append]
  cases hs : s.data with
  | nil => rw [hs] at h; exact Option.noConfusion h
  | cons x xs =>
    rw [hs] at h
    simp at h
    simp [h]

theorem strStarts_false_of_head (s pre : String) (c c' : Char) (cs' : List Char)
    (hs : headChar s = some c) (hp : pre.data = c' :: cs') (hne : ¬ c' = c) :
    strStarts s pre = false := by
  cases hst : strStarts s pre with
  | false => rfl
  | true =>
    have := headChar_of_strStarts s pre c' cs' hst hp
    rw [hs] at this
    simp at this
    exact absurd this.symm hne

/-- The fetch-line predicate of claim C5. -/
def isFetchLine (l : String) : Bool :=
  strStarts l "s3cmd get --force "

theorem strStarts_fetchCmd (S f : String) :
    strStarts (fetchCmd S f) "s3cmd get --force " = true := by
  unfold fetchCmd
  exact strStarts_append_left _ _ _ (strStarts_append_left _ _ _
    (strStarts_append_left _ _ _ (strStarts_append _ _)))

theorem nlFree_fetchCmd (S f : String) (hS : nlFree S = true)
    (hf : nlFree f = true) : nlFree (fetchCmd S f) = true := by
  simp only [fetchCmd, nlFree_append, hS, hf]
  decide

theorem countFetch_fetchBlock (S : String) (hS : nlFree S = true) :
    ∀ fs : List String, (∀ f ∈ fs, nlFree f = true) →
    (fileLines (joinLines (fs.map (fetchCmd S)))).countP isFetchLine
      = fs.length := by
  intro fs
  induction fs with
  | nil => intro _; rfl
  | cons f fs ih =>
    intro hf
    have hone : fileLines (fetchCmd S f) = [fetchCmd S f] :=
      fileLines_of_nlFree _ (nlFree_fetchCmd S f hS (hf f (by simp)))
    have hfetch : isFetchLine (fetchCmd S f) = true := strStarts_fetchCmd S f
    cases fs with
    | nil =>
      rw [List.map_cons, List.map_nil]
      show (fileLines (joinLines [fetchCmd S f])).countP isFetchLine = 1
      rw [show joinLines [fetchCmd S f] = fetchCmd S f from rfl, hone]
      simp [List.countP_cons, hfetch]
    | cons f2 fs2 =>
      rw [List.map_cons, joinLines_cons _ _ (by simp)]
      unfold fileLines
      rw [data_append_newline, splitNl_append, List.map_append, List.countP_append]
      unfold fileLines at hone ih
      rw [hone]
      rw [ih fun g hg => hf g (by simp [hg])]
      simp [List.countP_cons, hfetch, Nat.add_comm]

theorem countFetch_kpis (S : String) (hS : nlFree S = true) :
    ∀ ks : List (List String), (∀ f ∈ ks.flatten, nlFree f = true) →
    ((ks.map fun kpi => joinLines (kpi.map (fetchCmd S))).map
      fun l => (fileLines l).countP isFetchLine).sum = ks.flatten.length := by
  intro ks
  induction ks with
  | nil => intro _; rfl
  | cons kpi ks ih =>
    intro hl
    simp only [List.map_cons, List.sum_cons, List.flatten_cons, List.length_append]
    rw [countFetch_fetchBlock S hS kpi fun f hf => hl f (by simp [hf]),
      ih fun f hf => hl f (by simp [hf])]

theorem countFetch_entity (S : String) (hS : nlFree S = true)
    (e : String × EntityData) (hl : ∀ f ∈ leavesOf e.2, nlFree f = true) :
    ((entityLinesOk S e).map fun l => (fileLines l).countP isFetchLine).sum
      = (leavesOf e.2).length := by
  obtain ⟨n, d⟩ := e
  cases d with
  | flat fs =>
    show ([joinLines (fs.map (fetchCmd S))].map
      fun l => (fileLines l).countP isFetchLine).sum = fs.length
    simp only [List.map_cons, List.map_nil, List.sum_cons, List.sum_nil]
    rw [countFetch_fetchBlock S hS fs hl]
    omega
  | nested ks =>
    exact countFetch_kpis S hS ks hl

theorem countFetch_blocks (S : String) (hS : nlFree S = true) :
    ∀ es : List (String × EntityData),
    (∀ e ∈ es, ∀ f ∈ leavesOf e.2, nlFree f = true) →
    (((es.map (entityLinesOk S)).flatten).map
      fun l => (fileLines l).countP isFetchLine).sum = leafCount es := by
  intro es
  induction es with
  | nil => intro _; rfl
  | cons e es ih =>
    intro hl
    simp only [List.map_cons, List.flatten_cons, List.map_append, List.sum_append]
    rw [countFetch_entity S hS e (hl e (by simp)),
      ih fun e' he' => hl e' (by simp [he'])]
    unfold leafCount
    rw [List.flatMap_cons, List.length_append]

theorem isFetchLine_false_of_head (l : String) (c : Char)
    (h : headChar l = some c) (hne : ¬ c = 's') : isFetchLine l = false := by
  unfold isFetchLine
  exact strStarts_false_of_head l _ c 's' "3cmd get --force ".data h rfl
    fun he => hne he.symm

theorem countFetch_single (l : String) (h : nlFree l = true)
    (hf : isFetchLine l = false) : (fileLines l).countP isFetchLine = 0 := by
  rw [fileLines_of_nlFree _ h]
  simp [List.countP_cons, hf]

theorem nlFree_mkdirLine (T : String) (hT : nlFree T = true) :
    nlFree ("mkdir -p " ++ T ++ "raw " ++ T ++ "parquet " ++ T ++ "json") = true := by
  simp only [nlFree_append, hT]
  decide

theorem headChar_mkdirLine (T : String) :
    headChar ("mkdir -p " ++ T ++ "raw " ++ T ++ "parquet " ++ T ++ "json")
      = some 'm' := by
  repeat apply headChar_append_of_head
  rfl

theorem nlFree_cdRawLine (T : String) (hT : nlFree T = true) :
    nlFree ("[ -d \x22" ++ T ++ "raw\x22 ] && cd " ++ T ++ "raw && pwd") = true := by
  simp only [nlFree_append, hT]
  decide

theorem headChar_cdRawLine (T : String) :
    headChar ("[ -d \x22" ++ T ++ "raw\x22 ] && cd " ++ T ++ "raw && pwd")
      = some '[' := by
  repeat apply headChar_append_of_head
  rfl

/-- Claim C5: with a local intermediate path (isolating the entity section's
fetches), the download script for a well-shaped catalog mixing the
nested-shape `"kpis"` entity with flat-shape entities contains exactly one
`s3cmd get` line per leaf file across both shapes when the source path is
remote, and zero such lines when the source path is local. -/
theorem claim_C5_theorem (env : List (String × String))
    (entities : List (String × EntityData)) (hwf : wfCatalog entities = true)
    (T S I : String)
    (hT : T = tempPathOf env) (hS : S = sourcePathOf env)
    (hI : I = intermediatePathOf env)
    (hTn : nlFree T = true) (hSn : nlFree S = true)
    (hIloc : strStarts I "s3" = false)
    (hleaf : ∀ e ∈ entities, ∀ f ∈ leavesOf e.2, nlFree f = true) :
    ∃ dl ul, write_transfer_script env entities = .ok (dl, ul) ∧
      (fileLines dl).countP isFetchLine
        = if strStarts S "s3" then leafCount entities else 0 := by
  subst hT hS hI
  refine ⟨_, _, write_transfer_script_wf env entities hwf, ?_⟩
  unfold download_linesOk
  rw [show index_download_block (tempPathOf env) (intermediatePathOf env) = []
    from by unfold index_download_block; rw [if_neg (by simp [hIloc])]]
  have hsheb : (fileLines "#!/bin/bash").countP isFetchLine = 0 := rfl
  have hmk : (fileLines ("mkdir -p " ++ tempPathOf env ++ "raw "
      ++ tempPathOf env ++ "parquet " ++ tempPathOf env ++ "json")).countP
      isFetchLine = 0 :=
    countFetch_single _ (nlFree_mkdirLine _ hTn)
      (isFetchLine_false_of_head _ 'm' (headChar_mkdirLine _) (by decide))
  by_cases hrem : strStarts (sourcePathOf env) "s3" = true
  · rw [if_pos hrem, if_pos hrem]
    rw [fileLines_joinLines _ (by simp), countP_flatMap]
    simp only [List.map_append, List.map_cons, List.map_nil, List.sum_append,
      List.sum_cons, List.sum_nil]
    rw [hsheb, hmk]
    rw [countFetch_single _ (nlFree_cdRawLine _ hTn)
      (isFetchLine_false_of_head _ '[' (headChar_cdRawLine _) (by decide))]
    rw [countFetch_blocks _ hSn entities hleaf]
    omega
  · rw [if_neg hrem, if_neg hrem]
    rw [List.append_nil, List.append_nil]
    rw [fileLines_joinLines _ (by simp), countP_flatMap]
    simp only [List.map_cons, List.map_nil, List.sum_cons, List.sum_nil]
    rw [hsheb, hmk]
    omega

/-- Claim C5 witness: the theorem at a catalog mixing two flat entities
(one of them empty) with the nested `"kpis"` entity, five leaf files in
total, once with a remote and once with a local source path. -/
theorem claim_C5_witness :
    (∃ dl ul, write_transfer_script
        [("C360_TEMP_PATH", "/tmp/c/"), ("C360_SOURCE_PATH", "s3a://b/src/"),
         ("C360_INTERMEDIATE_PATH", "/nfs/i/"), ("C360_TARGET_PATH", "/nfs/o/")]
        [("customers", .flat ["a.csv", "b.csv"]), ("empty", .flat []),
         ("kpis", .nested [["k1.csv"], ["k2.csv", "k3.csv"]])] = .ok (dl, ul) ∧
      (fileLines dl).countP isFetchLine
        = if strStarts "s3://b/src/" "s3" then
            leafCount [("customers", .flat ["a.csv", "b.csv"]), ("empty", .flat []),
              ("kpis", .nested [["k1.csv"], ["k2.csv", "k3.csv"]])]
          else 0) ∧
    (∃ dl ul, write_transfer_script
        [("C360_TEMP_PATH", "/tmp/c/"), ("C360_SOURCE_PATH", "/nfs/s/"),
         ("C360_INTERMEDIATE_PATH", "/nfs/i/"), ("C360_TARGET_PATH", "/nfs/o/")]
        [("customers", .flat ["a.csv", "b.csv"]), ("empty", .flat []),
         ("kpis", .nested [["k1.csv"], ["k2.csv", "k3.csv"]])] = .ok (dl, ul) ∧
      (fileLines dl).countP isFetchLine
        = if strStarts "/nfs/s/" "s3" then
            leafCount [("customers", .flat ["a.csv", "b.csv"]), ("empty", .flat []),
              ("kpis", .nested [["k1.csv"], ["k2.csv", "k3.csv"]])]
          else 0) :=
  have h1 := claim_C5_theorem
    [("C360_TEMP_PATH", "/tmp/c/"), ("C360_SOURCE_PATH", "s3a://b/src/"),
     ("C360_INTERMEDIATE_PATH", "/nfs/i/"), ("C360_TARGET_PATH", "/nfs/o/")]
    [("customers", .flat ["a.csv", "b.csv"]), ("empty", .flat []),
     ("kpis", .nested [["k1.csv"], ["k2.csv", "k3.csv"]])]
    (by decide) "/tmp/c/" "s3://b/src/" "/nfs/i/"
    rfl rfl rfl (by decide) (by decide) (by decide) (by decide)
  have h2 := claim_C5_theorem
    [("C360_TEMP_PATH", "/tmp/c/"), ("C360_SOURCE_PATH", "/nfs/s/"),
     ("C360_INTERMEDIATE_PATH", "/nfs/i/"), ("C360_TARGET_PATH", "/nfs/o/")]
    [("customers", .flat ["a.csv", "b.csv"]), ("empty", .flat []),
     ("kpis", .nested [["k1.csv"], ["k2.csv", "k3.csv"]])]
    (by decide) "/tmp/c/" "/nfs/s/" "/nfs/i/"
    rfl rfl rfl (by decide) (by decide) (by decide) (by decide)
  ⟨h1, h2⟩

/-! ## Claim C4: guardedness of the emitted lines -/

theorem strStarts_refl (s : String) : strStarts s s = true := by
  unfold strStarts
  rw [List.isPrefixOf_iff_prefix]

/-- The classification of claim C4 as amended: a script line either begins
with an existence guard, or is one of the deliberately unguarded forms (the
interpreter marker, the mkdir preamble, an `s3cmd get` fetch, a `cd` line,
or a blank separator line). -/
def guardedOrKnown (l : String) : Prop :=
  strStarts l "[ -d \x22" = true ∨ strStarts l "[ -s \x22" = true ∨
  l = "#!/bin/bash" ∨ strStarts l "mkdir -p " = true ∨
  strStarts l "s3cmd get --force " = true ∨ strStarts l "cd " = true ∨ l = ""

instance (l : String) : Decidable (guardedOrKnown l) := by
  unfold guardedOrKnown
  infer_instance

theorem fileLines_all {P : String → Prop} (ls : List String) (h0 : ls ≠ [])
    (h : ∀ l ∈ ls, ∀ x ∈ fileLines l, P x) :
    ∀ x ∈ fileLines (joinLines ls), P x := by
  rw [fileLines_joinLines ls h0]
  intro x hx
  rw [List.mem_flatMap] at hx
  obtain ⟨l, hl, hxl⟩ := hx
  exact h l hl x hxl

theorem fileLines_all_single {P : String → Prop} (l : String)
    (h : nlFree l = true) (hp : P l) : ∀ x ∈ fileLines l, P x := by
  rw [fileLines_of_nlFree _ h]
  intro x hx
  rw [List.mem_singleton] at hx
  exact hx ▸ hp

theorem fetchBlock_lines (S : String) (hS : nlFree S = true)
    (fs : List String) (hf : ∀ f ∈ fs, nlFree f = true) :
    ∀ x ∈ fileLines (joinLines (fs.map (fetchCmd S))), guardedOrKnown x := by
  cases fs with
  | nil =>
    intro x hx
    rw [List.mem_singleton.mp hx]
    exact Or.inr (Or.inr (Or.inr (Or.inr (Or.inr (Or.inr rfl)))))
  | cons f fs =>
    refine fileLines_all _ (by simp) ?_
    intro l hl
    rw [List.mem_map] at hl
    obtain ⟨g, hg, hgl⟩ := hl
    subst hgl
    refine fileLines_all_single _ (nlFree_fetchCmd S g hS (hf g hg)) ?_
    exact Or.inr (Or.inr (Or.inr (Or.inr (Or.inl (strStarts_fetchCmd S g)))))

theorem entBlock_lines (S : String) (hS : nlFree S = true)
    (es : List (String × EntityData))
    (hleaf : ∀ e ∈ es, ∀ f ∈ leavesOf e.2, nlFree f = true) :
    ∀ l ∈ (es.map (entityLinesOk S)).flatten, ∀ x ∈ fileLines l,
      guardedOrKnown x := by
  intro l hl
  rw [List.mem_flatten] at hl
  obtain ⟨bl, hbl, hlbl⟩ := hl
  rw [List.mem_map] at hbl
  obtain ⟨e, he, hbe⟩ := hbl
  subst hbe
  obtain ⟨n, d⟩ := e
  cases d with
  | flat fs =>
    rw [show entityLinesOk S (n, .flat fs) = [joinLines (fs.map (fetchCmd S))]
      from rfl, List.mem_singleton] at hlbl
    subst hlbl
    exact fetchBlock_lines S hS fs (hleaf (n, .flat fs) he)
  | nested ks =>
    rw [show entityLinesOk S (n, .nested ks)
        = ks.map (fun kpi => joinLines (kpi.map (fetchCmd S))) from rfl,
      List.mem_map] at hlbl
    obtain ⟨kpi, hkpi, hkl⟩ := hlbl
    subst hkl
    refine fetchBlock_lines S hS kpi fun f hf => ?_
    refine hleaf (n, .nested ks) he f ?_
    show f ∈ ks.flatten
    rw [List.mem_flatten]
    exact ⟨kpi, hkpi, hf⟩

theorem idxDl_lines (T I : String) (hTn : nlFree T = true)
    (hIn : nlFree I = true) :
    ∀ l ∈ index_download_block T I, ∀ x ∈ fileLines l, guardedOrKnown x := by
  intro l hl
  unfold index_download_block at hl
  split at hl
  · simp only [List.mem_cons, List.not_mem_nil, or_false] at hl
    rcases hl with rfl | rfl | rfl | rfl
    · refine fileLines_all_single _ (by simp only [nlFree_append, hTn]; decide) ?_
      exact Or.inl (by repeat apply strStarts_append_left
                       exact strStarts_refl _)
    · refine fileLines_all_single _
        (by simp only [nlFree_append, hIn, identifier_filename]; decide) ?_
      refine Or.inr (Or.inr (Or.inr (Or.inr (Or.inl ?_))))
      repeat apply strStarts_append_left
      exact strStarts_refl _
    · exact fileLines_all_single _ (by decide) (by decide)
    · exact fileLines_all_single _ (by decide) (by decide)
  · exact absurd hl (List.not_mem_nil l)

theorem idxUl_lines (T I : String) (hTn : nlFree T = true)
    (hIn : nlFree I = true) :
    ∀ l ∈ index_upload_block T I, ∀ x ∈ fileLines l, guardedOrKnown x := by
  intro l hl
  unfold index_upload_block at hl
  split at hl
  · simp only [List.mem_cons, List.not_mem_nil, or_false] at hl
    rcases hl with rfl | rfl | rfl
    · refine fileLines_all_single _ (by simp only [nlFree_append, hTn]; decide) ?_
      exact Or.inl (by repeat apply strStarts_append_left
                       exact strStarts_refl _)
    · exact fileLines_all_single _ (by decide) (by decide)
    · refine fileLines_all_single _
        (by simp only [nlFree_append, hIn, identifier_filename]; decide) ?_
      refine Or.inr (Or.inl ?_)
      repeat apply strStarts_append_left
      exact strStarts_refl _
  · exact absurd hl (List.not_mem_nil l)

theorem targetUl_lines (T G : String) (hTn : nlFree T = true)
    (hGn : nlFree G = true) :
    ∀ l ∈ target_upload_block T G, ∀ x ∈ fileLines l, guardedOrKnown x := by
  intro l hl
  unfold target_upload_block at hl
  split at hl
  · rw [List.mem_cons] at hl
    rcases hl with rfl | hl
    · refine fileLines_all_single _ (by simp only [nlFree_append, hTn]; decide) ?_
      refine Or.inr (Or.inr (Or.inr (Or.inr (Or.inr (Or.inl ?_)))))
      repeat apply strStarts_append_left
      exact strStarts_refl _
    · rw [List.mem_flatMap] at hl
      obtain ⟨doc, hdoc, hld⟩ := hl
      have hdn : nlFree doc = true := by
        have hall : final_documents.all nlFree = true := by decide
        rw [List.all_eq_true] at hall
        exact hall doc hdoc
      simp only [List.mem_cons, List.not_mem_nil, or_false] at hld
      rcases hld with rfl | rfl
      · refine fileLines_all_single _
          (by simp only [nlFree_append, hdn]; decide) ?_
        exact Or.inl (by repeat apply strStarts_append_left
                         exact strStarts_refl _)
      · refine fileLines_all_single _
          (by simp only [nlFree_append, hdn, hGn]; decide) ?_
        refine Or.inr (Or.inl ?_)
        repeat apply strStarts_append_left
        exact strStarts_refl _
  · exact absurd hl (List.not_mem_nil l)

/-- Claim C4 counterexample: already the second line of the download script
(the mkdir preamble, directly after the interpreter marker) begins with
neither `[ -d` nor `[ -s`. -/
theorem claim_C4_counterexample :
    (write_transfer_script
      [("C360_TEMP_PATH", "/tmp/c/"), ("C360_SOURCE_PATH", "/nfs/s/"),
       ("C360_INTERMEDIATE_PATH", "/nfs/i/"), ("C360_TARGET_PATH", "/nfs/o/")]
      []).map (fun r => (fileLines r.1)[1]?)
      = .ok (some "mkdir -p /tmp/c/raw /tmp/c/parquet /tmp/c/json") ∧
    strStarts "mkdir -p /tmp/c/raw /tmp/c/parquet /tmp/c/json" "[ -d " = false ∧
    strStarts "mkdir -p /tmp/c/raw /tmp/c/parquet /tmp/c/json" "[ -s " = false :=
  ⟨rfl, rfl, rfl⟩

/-- Claim C4 as amended: not every line after the interpreter marker is
existence-guarded — every line of both scripts either begins with a
`[ -d "` or `[ -s "` guard (in particular all tar/rm/s3cmd-put lines do),
or is one of the deliberately unguarded forms: the interpreter marker, the
mkdir preamble, an `s3cmd get` fetch line, a `cd` line, or a blank
separator line. -/
theorem claim_C4_theorem (env : List (String × String))
    (entities : List (String × EntityData)) (hwf : wfCatalog entities = true)
    (T S I G : String)
    (hT : T = tempPathOf env) (hS : S = sourcePathOf env)
    (hI : I = intermediatePathOf env) (hG : G = targetPathOf env)
    (hTn : nlFree T = true) (hSn : nlFree S = true)
    (hIn : nlFree I = true) (hGn : nlFree G = true)
    (hleaf : ∀ e ∈ entities, ∀ f ∈ leavesOf e.2, nlFree f = true) :
    ∃ dl ul, write_transfer_script env entities = .ok (dl, ul) ∧
      (∀ l ∈ fileLines dl, guardedOrKnown l) ∧
      (∀ l ∈ fileLines ul, guardedOrKnown l) := by
  subst hT hS hI hG
  refine ⟨_, _, write_transfer_script_wf env entities hwf, ?_, ?_⟩
  · refine fileLines_all _ (by simp [download_linesOk]) ?_
    intro l hl
    unfold download_linesOk at hl
    rw [List.mem_append, List.mem_append] at hl
    rcases hl with (hl | hl) | hl
    · simp only [List.mem_cons, List.not_mem_nil, or_false] at hl
      rcases hl with rfl | rfl
      · exact fileLines_all_single _ (by decide) (by decide)
      · refine fileLines_all_single _ (nlFree_mkdirLine _ hTn) ?_
        refine Or.inr (Or.inr (Or.inr (Or.inl ?_)))
        repeat apply strStarts_append_left
        exact strStarts_refl _
    · exact idxDl_lines _ _ hTn hIn l hl
    · split at hl
      · rw [List.mem_cons] at hl
        rcases hl with rfl | hl
        · refine fileLines_all_single _ (nlFree_cdRawLine _ hTn) ?_
          exact Or.inl (by repeat apply strStarts_append_left
                           exact strStarts_refl _)
        · exact entBlock_lines _ hSn entities hleaf l hl
      · exact absurd hl (List.not_mem_nil l)
  · refine fileLines_all _ (by simp [upload_lines]) ?_
    intro l hl
    unfold upload_lines at hl
    rw [List.mem_append, List.mem_append] at hl
    rcases hl with (hl | hl) | hl
    · rw [List.mem_singleton] at hl
      subst hl
      exact fileLines_all_single _ (by decide) (by decide)
    · exact idxUl_lines _ _ hTn hIn l hl
    · exact targetUl_lines _ _ hTn hGn l hl

/-- Claim C4 witness: the amended theorem at a fully remote configuration
with a mixed catalog. -/
theorem claim_C4_witness :
    ∃ dl ul, write_transfer_script
      [("C360_TEMP_PATH", "/tmp/c/"), ("C360_SOURCE_PATH", "s3://b/s/"),
       ("C360_INTERMEDIATE_PATH", "s3://b/i/"), ("C360_TARGET_PATH", "s3://b/o/")]
      [("customers", .flat ["a.csv"]), ("kpis", .nested [["k1.csv"]])]
      = .ok (dl, ul) ∧
    (∀ l ∈ fileLines dl, guardedOrKnown l) ∧
    (∀ l ∈ fileLines ul, guardedOrKnown l) :=
  claim_C4_theorem _ _ (by decide) "/tmp/c/" "s3://b/s/" "s3://b/i/" "s3://b/o/"
    rfl rfl rfl rfl (by decide) (by decide) (by decide) (by decide) (by decide)

end StephanOOP
